import Mathlib

/-!
Shallow embedding of the Tanka reconciliation core
(`pkg/kubernetes/manifest/identifier.go` together with the engine file
`pkg/kubernetes/kubernetes.go` shipped in the same source listing):
resource identity, the reconciliation engine (`New`, `Apply`, `Diff`),
the diff-strategy registry, and the concurrent orphan detector
(`listOrphaned`, `parallelGetByLabels`).

Go maps, channels and goroutines are modelled explicitly:
  * a map lookup that misses yields the zero value (for a function-typed
    map value this is `none`, and calling it is a runtime panic, modelled
    as the `none` result of `Diff`);
  * the fan-in loop of `listOrphaned` consumes events from the two
    channels in a nondeterministic order; the set of event sequences it
    can consume is captured by the `Sched` relation below (an
    interleaving of prefixes of the per-worker emission sequences).
-/

/-- An Identifier can be used to uniquely identify a Manifest.
Source: `type Identifier struct { Kind, Name, Namespace string }`. -/
structure Identifier where
  Kind : String
  Name : String
  Namespace : String
deriving DecidableEq, Repr

/-- Modelled from the spec: the metadata of a Manifest exposes at minimum
`name`, `namespace` (written `ns` here, the lower-case word is reserved in
Lean) and a mapping of labels.  The concrete Manifest type lives outside
the given source files; only its accessors `Kind()`, `Metadata().Name()`
and `Metadata().Namespace()` are used by it. -/
structure Metadata where
  name : String
  ns : String
  labels : List (String × String)
deriving DecidableEq, Repr

/-- Modelled from the spec: a Manifest carries `kind`, `metadata` and an
opaque body that the reconciliation core never interprets. -/
structure Manifest where
  kind : String
  metadata : Metadata
  body : String
deriving DecidableEq, Repr

/-- Source: `func (m Manifest) Identifier() Identifier` — identity is the
(kind, metadata.name, metadata.namespace) triple. -/
def Manifest.Identifier (m : Manifest) : Identifier :=
  { Kind := m.kind, Name := m.metadata.name, Namespace := m.metadata.ns }

/-- Numeric part of a semantic version, as compared by the semver
library used in `New` (`info.ServerVersion.LessThan(semver.MustParse("1.13.0"))`). -/
structure Version where
  major : Nat
  minor : Nat
  patch : Nat
deriving DecidableEq, Repr

/-- Lexicographic (proper semantic-version) comparison on
major.minor.patch, as performed by `semver.Version.LessThan`. -/
def Version.lessThan (a b : Version) : Bool :=
  decide (a.major < b.major ∨ (a.major = b.major ∧
    (a.minor < b.minor ∨ (a.minor = b.minor ∧ a.patch < b.patch))))

/-- Source: the fields of `v1alpha1.Config.Spec` the engine reads:
`APIServer`, `Namespace` (written `ns`), `DiffStrategy`. -/
structure ConfigSpec where
  apiServer : String
  ns : String
  diffStrategy : String
deriving DecidableEq, Repr

/-- Modelled from the spec: the environment metadata exposes a
`NameLabel()` accessor producing the environment name label used to
select member resources. -/
structure ConfigMetadata where
  nameLabel : String
deriving DecidableEq, Repr

/-- Source: `v1alpha1.Config`, restricted to the fields the engine reads. -/
structure Config where
  spec : ConfigSpec
  metadata : ConfigMetadata
deriving DecidableEq, Repr

/-- Source: `client.Info` — the immutable snapshot taken at construction.
Only the server version and the naming fields used by `Apply` are kept. -/
structure Info where
  serverVersion : Version
  clusterName : String
  clusterServer : String
  contextName : String
deriving DecidableEq, Repr

/-- Modelled from the spec: `client.ApplyOpts` carries at least the
`autoApprove` switch consulted before confirmation. -/
structure ApplyOpts where
  AutoApprove : Bool
deriving DecidableEq, Repr

/-- The Cluster Client collaborator (`client.Client`), modelled as a
record of response functions.  `getByLabels` takes the namespace, the
kind and the label selector and returns the Go pair `(manifest.List, error)`;
`info` is the result of `ctl.Info()`;
`diffServerSide` and `subsetDiff` return the Go pair `(*string, error)`. -/
structure Client where
  info : Except String Info
  getByLabels : String → String → List (String × String) → List Manifest × Option String
  diffServerSide : List Manifest → Option String × Option String
  subsetDiff : List Manifest → Option String × Option String

/-- Source: `type Differ func(manifest.List) (*string, error)`. -/
def Differ : Type := List Manifest → Option String × Option String

/-- Modelled from the spec: `SubsetDiffer(ctl)` builds the degraded
subset-comparison strategy from the client; it lives outside the given
source files and is treated as the client capability `subsetDiff`. -/
def SubsetDiffer (ctl : Client) : Differ := ctl.subsetDiff

/-- Source: `type Kubernetes struct { Env v1alpha1.Config; ctl client.Client; info client.Info; differs map[string]Differ }`.
The `differs` map is fully determined by `ctl` (it is built in `New` as
`{"native": ctl.DiffServerSide, "subset": SubsetDiffer(ctl)}`), so it is
carried as the lookup function `Kubernetes.differs` below. -/
structure Kubernetes where
  Env : Config
  ctl : Client
  info : Info

/-- The `differs` registry built in `New`:
`map[string]Differ{"native": ctl.DiffServerSide, "subset": SubsetDiffer(ctl)}`.
A Go map lookup that misses returns the zero value (a nil function),
modelled as `none`. -/
def Kubernetes.differs (k : Kubernetes) (name : String) : Option Differ :=
  if name = "native" then some k.ctl.diffServerSide
  else if name = "subset" then some (SubsetDiffer k.ctl)
  else none

/-- Source: `func New(c v1alpha1.Config) (*Kubernetes, error)`.
The external call `client.New(c.Spec.APIServer)` is passed in as its
outcome `ctlRes`; `errors.Wrap(err, "creating client")` renders as the
prefix `"creating client: "`. -/
def New (c : Config) (ctlRes : Except String Client) : Except String Kubernetes :=
  match ctlRes with
  | Except.error err => Except.error ("creating client: " ++ err)
  | Except.ok ctl =>
    match ctl.info with
    | Except.error err => Except.error err
    | Except.ok info =>
      let c :=
        if c.spec.diffStrategy = "" then
          let c := { c with spec := { c.spec with diffStrategy := "native" } }
          if info.serverVersion.lessThan { major := 1, minor := 13, patch := 0 } then
            { c with spec := { c.spec with diffStrategy := "subset" } }
          else c
        else c
      Except.ok { Env := c, ctl := ctl, info := info }

/-- Source: `type DiffOpts struct { Summarize bool; Strategy string }`. -/
structure DiffOpts where
  Summarize : Bool
  Strategy : String
deriving DecidableEq, Repr

/-- The strategy-name resolution at the top of `Diff`:
`strategy := k.Env.Spec.DiffStrategy; if opts.Strategy != "" { strategy = opts.Strategy }`. -/
def resolveStrategy (k : Kubernetes) (opts : DiffOpts) : String :=
  let strategy := k.Env.spec.diffStrategy
  if opts.Strategy ≠ "" then opts.Strategy else strategy

/-- Source: `func (k *Kubernetes) Diff(state manifest.List, opts DiffOpts) (*string, error)`.
`dstat` is the external `util.Diffstat` collaborator.  The overall
`Option` is `none` exactly when the source panics: `k.differs[strategy]`
on an unregistered name yields a nil function, and calling it crashes. -/
def Diff (dstat : String → Option String × Option String) (k : Kubernetes)
    (state : List Manifest) (opts : DiffOpts) :
    Option (Option String × Option String) :=
  match k.differs (resolveStrategy k opts) with
  | none => none
  | some differ =>
    let res := differ state
    match res.2, res.1 with
    | some err, _ => some (none, some err)
    | none, none => some (none, none)
    | none, some d =>
      if opts.Summarize then some (dstat d) else some (some d, none)

/-- Modelled from the spec: the fixed process-wide label key marking
membership of a resource in an environment (`LabelEnvironment`); its
declaration lives outside the given source files, only its use in
`parallelGetByLabels` is visible. -/
def LabelEnvironment : String := "app.kubernetes.io/part-of"

/-- Rendering of `errors.Wrapf(err, "getting orphans of kind '%s':", kind)`:
the wrap message followed by `": "` and the cause.  (`\x27` is the
apostrophe used around the kind name.) -/
def wrapOrphanErr (kind cause : String) : String :=
  "getting orphans of kind \x27" ++ kind ++ "\x27:" ++ ": " ++ cause

/-- One message observed by the fan-in loop of `listOrphaned`: either a
`manifest.List` from the result channel `r` or an error from `e`. -/
inductive Event where
  | success (list : List Manifest)
  | failure (err : String)
deriving DecidableEq, Repr

/-- Source: `func (k *Kubernetes) parallelGetByLabels(kind, envName string, r chan manifest.List, e chan error)`.
The worker queries once and then sends: on error it sends the wrapped
error on `e` AND — for want of a `return` — still sends the list on `r`.
Its emissions, in order, are therefore the error message (if any)
followed by the list message. -/
def parallelGetByLabels (k : Kubernetes) (kind envName : String) : List Event :=
  let res := k.ctl.getByLabels "" kind [(LabelEnvironment, envName)]
  (match res.2 with
   | some err => [Event.failure (wrapOrphanErr kind err)]
   | none => []) ++ [Event.success res.1]

/-- Source: the fixed `kinds` catalog inside `listOrphaned`. -/
def kinds : List String :=
  [ "ConfigMap", "Endpoints", "Namespace", "PersistentVolumeClaim",
    "PersistentVolume", "Pod", "ReplicationController", "Secret",
    "ServiceAccount", "Service",
    "DaemonSet", "Deployment", "ReplicaSet", "StatefulSet",
    "Job", "CronJob",
    "Ingress",
    "ClusterRole", "ClusterRoleBinding", "Role", "RoleBinding" ]

/-- The per-worker emission sequences of the fan-out
`for _, kind := range kinds { go k.parallelGetByLabels(kind, k.Env.Metadata.NameLabel(), r, e) }`. -/
def orphanEmissions (k : Kubernetes) : List (List Event) :=
  kinds.map (fun kind => parallelGetByLabels k kind k.Env.metadata.nameLabel)

/-- One iteration of the fan-in `select`: a list appends its non-known
manifests to `orphaned`, an error overwrites `lastErr`. -/
def fanInStep (known : Identifier → Bool) (acc : List Manifest × Option String)
    (ev : Event) : List Manifest × Option String :=
  match ev with
  | Event.success list => (acc.1 ++ list.filter (fun m => !(known m.Identifier)), acc.2)
  | Event.failure err => (acc.1, some err)

/-- The fan-in loop of `listOrphaned`, run over the sequence of events it
consumed (`len(kinds)` iterations of the `select`). -/
def fanIn (known : Identifier → Bool) (sched : List Event) : List Manifest × Option String :=
  sched.foldl (fanInStep known) ([], none)

/-- The `known` map built at the top of `listOrphaned`:
`known[m.Identifier()] = true` for every manifest of the desired state;
a lookup of an absent key yields `false`. -/
def knownOf (state : List Manifest) (i : Identifier) : Bool :=
  decide (i ∈ state.map Manifest.Identifier)

/-- Source: `func (k *Kubernetes) listOrphaned(state manifest.List) (manifest.List, error)`.
`sched` is the (nondeterministic) sequence of events the fan-in loop
consumed; `Sched (orphanEmissions k) sched` together with
`sched.length = kinds.length` characterises the sequences the loop can
observe. -/
def listOrphaned (k : Kubernetes) (state : List Manifest) (sched : List Event) :
    Except String (List Manifest) :=
  let res := fanIn (knownOf state) sched
  match res.2 with
  | some lastErr => Except.error lastErr
  | none => Except.ok res.1

/-- Observable actions of `Apply`: printed lines, a confirmation prompt
(`cli.Confirm`), and the mutating `ctl.Apply` call. -/
inductive ApplyEffect where
  | printed (s : String)
  | printedIdentifier (i : Identifier)
  | confirmRequested
  | clientApplied
deriving DecidableEq, Repr

/-- Source: `func (k *Kubernetes) Apply(state manifest.List, opts ApplyOpts) error`.
The whole confirmation-and-mutate block is guarded by `if false { ... }`
and never executes; the function instead lists orphans and prints their
identifiers.  Returned: the Go error and the trace of effects. -/
def Apply (k : Kubernetes) (state : List Manifest) (opts : ApplyOpts)
    (sched : List Event) : Option String × List ApplyEffect :=
  match listOrphaned k state sched with
  | Except.error err => (some err, [])
  | Except.ok list =>
    (none, ApplyEffect.printed "orphan" ::
      list.map (fun m => ApplyEffect.printedIdentifier m.Identifier))

/-- One `GetByLabels` call: the namespace, kind and label-selector
arguments the worker passes to the client. -/
structure Query where
  ns : String
  kind : String
  selector : List (String × String)
deriving DecidableEq, Repr

/-- The queries issued by one `listOrphaned` call: the fan-out launches
one worker per kind of the catalog, and each worker performs exactly one
`k.ctl.GetByLabels("", kind, map[string]string{LabelEnvironment: envName})`
call, independent of every other worker's outcome. -/
def queriesIssued (k : Kubernetes) : List Query :=
  kinds.map (fun kind =>
    { ns := "", kind := kind,
      selector := [(LabelEnvironment, k.Env.metadata.nameLabel)] })

/-- The event sequences the fan-in loop can consume: an interleaving of
prefixes of the per-worker emission sequences.  `step ls i h ev rest`
consumes the next unconsumed event `ev` of worker `i`. -/
inductive Sched : List (List Event) → List Event → Prop where
  | nil (ls : List (List Event)) : Sched ls []
  | step (ls : List (List Event)) (i : Nat) (h : i < ls.length) (ev : Event)
      (rest : List Event) (out : List Event)
      (hget : ls.get ⟨i, h⟩ = ev :: rest)
      (htail : Sched (ls.set i rest) out) : Sched ls (ev :: out)

/-- The orphan manifests an event contributes. -/
def eventOrphans (known : Identifier → Bool) (ev : Event) : List Manifest :=
  match ev with
  | Event.success list => list.filter (fun m => !(known m.Identifier))
  | Event.failure _ => []

/-- All orphans a consumed event sequence contributes, in order. -/
def schedOrphans (known : Identifier → Bool) (sched : List Event) : List Manifest :=
  (sched.map (eventOrphans known)).flatten

/-- The error messages of a consumed event sequence, in order. -/
def schedFailures (sched : List Event) : List String :=
  sched.filterMap (fun ev =>
    match ev with
    | Event.failure err => some err
    | Event.success _ => none)

/-- Whether an event is an error-channel message. -/
def Event.isFailure (ev : Event) : Bool :=
  match ev with
  | Event.failure _ => true
  | Event.success _ => false

/-- `lastErr` after a run of the fan-in loop that started with `d`:
the last failure of the sequence, or `d` if there is none. -/
def lastOr (l : List String) (d : Option String) : Option String :=
  match l.getLast? with
  | some e => some e
  | none => d

/-- The number of events of a worker's emission sequence that can be
consumed without consuming a failure. -/
def errFreeLen (l : List Event) : Nat :=
  (l.takeWhile (fun ev => ! ev.isFailure)).length

/- ===== Concrete fixtures used by witnesses and counterexamples ===== -/

/-- A manifest with the given identity triple, no labels, empty body. -/
def mkManifest (kind name ns : String) : Manifest :=
  { kind := kind, metadata := { name := name, ns := ns, labels := [] }, body := "" }

/-- The desired-state Deployment of the spec example scenario. -/
def apiDep : Manifest := mkManifest "Deployment" "api" "prod"

/-- The extra live Deployment of the spec example scenario. -/
def workerDep : Manifest := mkManifest "Deployment" "worker" "prod"

/-- Demo environment: namespace `prod`, name label `demo`, configured
diff strategy `native`. -/
def demoEnv : Config :=
  { spec := { apiServer := "https://example.org:6443", ns := "prod", diffStrategy := "native" },
    metadata := { nameLabel := "demo" } }

def demoInfo : Info :=
  { serverVersion := { major := 1, minor := 13, patch := 0 },
    clusterName := "demo-cluster", clusterServer := "https://example.org:6443",
    contextName := "demo-ctx" }

/-- A cluster where only the Deployment query returns manifests and every
query succeeds. -/
def demoClient : Client :=
  { info := Except.ok demoInfo,
    getByLabels := fun _ kind _ =>
      (if kind = "Deployment" then [apiDep, workerDep] else [], none),
    diffServerSide := fun _ => (none, none),
    subsetDiff := fun _ => (none, none) }

def demoK : Kubernetes := { Env := demoEnv, ctl := demoClient, info := demoInfo }

/-- A cluster where the ConfigMap query fails with `boom` and every other
query succeeds with an empty list. -/
def failClient : Client :=
  { info := Except.ok demoInfo,
    getByLabels := fun _ kind _ =>
      (if kind = "ConfigMap" then ([], some "boom") else ([], none)),
    diffServerSide := fun _ => (none, none),
    subsetDiff := fun _ => (none, none) }

def failK : Kubernetes := { Env := demoEnv, ctl := failClient, info := demoInfo }

/-- A cluster where two distinct category queries (ConfigMap and Secret)
each return a manifest with the same identity. -/
def dupManifest : Manifest := mkManifest "ConfigMap" "dup" "prod"

def dupClient : Client :=
  { info := Except.ok demoInfo,
    getByLabels := fun _ kind _ =>
      (if kind = "ConfigMap" then [dupManifest]
       else if kind = "Secret" then [dupManifest] else [], none),
    diffServerSide := fun _ => (none, none),
    subsetDiff := fun _ => (none, none) }

def dupK : Kubernetes := { Env := demoEnv, ctl := dupClient, info := demoInfo }

/-- A complete catalog-order schedule over the demo cluster. -/
def demoSched : List Event := (orphanEmissions demoK).flatten

/-- A complete schedule over the failing cluster: the failing worker's
error and list are both consumed, crowding out one success message. -/
def failSched : List Event := ((orphanEmissions failK).flatten).take kinds.length

/-- A complete catalog-order schedule over the duplicate cluster. -/
def dupSched : List Event := (orphanEmissions dupK).flatten

/-- The desired state of the spec example scenario. -/
def orphanState : List Manifest := [apiDep]

/-- Apply options without auto-approval. -/
def noApprove : ApplyOpts := { AutoApprove := false }

/-- A trivial stand-in for the external `util.Diffstat` collaborator. -/
def dstatEcho : String → Option String × Option String := fun s => (some s, none)

/-- Per-call options selecting an unregistered strategy name. -/
def bogusOpts : DiffOpts := { Summarize := false, Strategy := "bogus" }

/-- Environment with no configured diff strategy. -/
def cfgEmpty : Config :=
  { spec := { apiServer := "https://example.org:6443", ns := "prod", diffStrategy := "" },
    metadata := { nameLabel := "demo" } }

def info129 : Info :=
  { serverVersion := { major := 1, minor := 12, patch := 9 },
    clusterName := "demo-cluster", clusterServer := "https://example.org:6443",
    contextName := "demo-ctx" }

def ctl129 : Client :=
  { info := Except.ok info129,
    getByLabels := fun _ _ _ => ([], none),
    diffServerSide := fun _ => (none, none),
    subsetDiff := fun _ => (none, none) }

/-- The engine `New` builds from `cfgEmpty` against a 1.12.9 server. -/
def k129 : Kubernetes :=
  { Env := { spec := { apiServer := "https://example.org:6443", ns := "prod",
                       diffStrategy := "subset" },
             metadata := { nameLabel := "demo" } },
    ctl := ctl129, info := info129 }

/-- Diff options with neither summarising nor a per-call strategy. -/
def noStratOpts : DiffOpts := { Summarize := false, Strategy := "" }

/- ===== Lemmas and claim theorems ===== -/

/-- A later failure overrides an earlier one in `lastErr`. -/
theorem lastOr_cons (e : String) (l : List String) (d : Option String) :
    lastOr (e :: l) d = lastOr l (some e) := by
  cases l with
  | nil => simp [lastOr]
  | cons x xs =>
    unfold lastOr
    rw [List.getLast?_cons_cons]
    cases hh : (x :: xs).getLast? with
    | none => simp at hh
    | some y => rfl

/-- Unfolding of the fan-in loop: the orphans are the concatenation of
each consumed list's non-known manifests, and `lastErr` is the last
consumed failure (or the initial value when none was consumed). -/
theorem foldl_fanInStep (known : Identifier → Bool) :
    ∀ (sched : List Event) (acc : List Manifest × Option String),
      sched.foldl (fanInStep known) acc =
        (acc.1 ++ schedOrphans known sched, lastOr (schedFailures sched) acc.2) := by
  intro sched
  induction sched with
  | nil =>
    intro acc
    simp [schedOrphans, schedFailures, lastOr]
  | cons ev rest ih =>
    intro acc
    cases ev with
    | success list =>
      simp only [List.foldl_cons, ih, fanInStep, schedOrphans, schedFailures,
        List.map_cons, List.flatten_cons, List.filterMap_cons, eventOrphans,
        List.append_assoc]
    | failure err =>
      simp only [List.foldl_cons, ih, fanInStep, schedOrphans, schedFailures,
        List.map_cons, List.flatten_cons, List.filterMap_cons, eventOrphans,
        List.nil_append, lastOr_cons]

theorem fanIn_eq (known : Identifier → Bool) (sched : List Event) :
    fanIn known sched = (schedOrphans known sched, lastOr (schedFailures sched) none) := by
  simpa [fanIn] using foldl_fanInStep known sched ([], none)

/-- A schedule over some workers is also a schedule once a further worker
is adjoined in front (its emissions simply stay unconsumed). -/
theorem Sched.cons_keep {ls : List (List Event)} {out : List Event}
    (hs : Sched ls out) (l : List Event) : Sched (l :: ls) out := by
  induction hs with
  | nil => exact Sched.nil _
  | step ls i h ev rest out hget htail ih =>
    refine Sched.step (l :: ls) (i + 1) (by simpa using Nat.succ_lt_succ h) ev rest out ?_ ?_
    · simpa using hget
    · exact ih

/-- The head worker's events can be consumed first, up to any prefix of
its emissions, before a schedule of the remaining workers runs. -/
theorem Sched.cons_prefix {ls : List (List Event)} {out : List Event}
    (hs : Sched ls out) :
    ∀ (p l : List Event), p <+: l → Sched (l :: ls) (p ++ out) := by
  intro p
  induction p with
  | nil =>
    intro l _
    simpa using hs.cons_keep l
  | cons ev p ih =>
    intro l hp
    obtain ⟨t, ht⟩ := hp
    subst ht
    refine Sched.step _ 0 (by simp) ev (p ++ t) (p ++ out) rfl ?_
    exact ih (p ++ t) ⟨t, rfl⟩

/-- Consuming, worker by worker, any pointwise prefix of the emission
sequences is a valid schedule. -/
theorem sched_of_prefixes :
    ∀ {ps ls : List (List Event)}, List.Forall₂ (fun p l => p <+: l) ps ls →
      Sched ls ps.flatten := by
  intro ps ls h
  induction h with
  | nil => exact Sched.nil _
  | @cons p l ps ls hpl _ ih =>
    simpa using (ih.cons_prefix p l hpl)

/-- Consuming every emission in catalog order is a valid schedule. -/
theorem sched_self (ls : List (List Event)) : Sched ls ls.flatten := by
  refine sched_of_prefixes ?_
  induction ls with
  | nil => exact List.Forall₂.nil
  | cons l tl ih => exact List.Forall₂.cons (List.prefix_refl l) ih

/-- Replacing one worker's list changes a mapped sum by the difference of
the two images. -/
theorem sum_map_set (f : List Event → Nat) :
    ∀ (ls : List (List Event)) (i : Nat) (h : i < ls.length) (x : List Event),
      ((ls.set i x).map f).sum + f (ls.get ⟨i, h⟩) = (ls.map f).sum + f x := by
  intro ls
  induction ls with
  | nil =>
    intro i h
    simp at h
  | cons l tl ih =>
    intro i h x
    cases i with
    | zero =>
      simp [List.set]
      omega
    | succ i =>
      have hlt : i < tl.length := by simpa using Nat.lt_of_succ_lt_succ h
      have := ih i hlt x
      simp only [List.set, List.map_cons, List.sum_cons, List.get_cons_succ]
      omega

/-- A schedule never consumes more events than the workers emit. -/
theorem Sched.length_le {ls : List (List Event)} {out : List Event}
    (hs : Sched ls out) : out.length ≤ (ls.map List.length).sum := by
  induction hs with
  | nil => simp
  | step ls i h ev rest out hget htail ih =>
    have hsum := sum_map_set List.length ls i h rest
    rw [hget] at hsum
    simp only [List.length_cons] at hsum
    simp only [List.length_cons]
    omega

/-- Permutation of a flattening when one inner list loses its head. -/
theorem flatten_get_cons_perm {α : Type} :
    ∀ (ls : List (List α)) (i : Nat) (h : i < ls.length) (ev : α) (rest : List α),
      ls.get ⟨i, h⟩ = ev :: rest → ls.flatten.Perm (ev :: (ls.set i rest).flatten) := by
  intro ls
  induction ls with
  | nil =>
    intro i h
    simp at h
  | cons l tl ih =>
    intro i h ev rest hget
    cases i with
    | zero =>
      simp only [List.get] at hget
      subst hget
      simp [List.flatten_cons, List.set]
    | succ i =>
      have hlt : i < tl.length := by simpa using Nat.lt_of_succ_lt_succ h
      have hperm := ih i hlt ev rest (by simpa using hget)
      simp only [List.flatten_cons, List.set]
      exact (hperm.append_left l).trans List.perm_middle

/-- The flattening is as long as the summed inner lengths. -/
theorem length_flatten_eq {α : Type} :
    ∀ ls : List (List α), ls.flatten.length = (ls.map List.length).sum := by
  intro ls
  induction ls with
  | nil => simp
  | cons l tl ih => simp [List.flatten_cons, List.length_append, ih]

/-- A schedule that consumes as many events as the workers emit in total
is a permutation of all emissions. -/
theorem Sched.full_perm {ls : List (List Event)} {out : List Event}
    (hs : Sched ls out) :
    out.length = (ls.map List.length).sum → out.Perm ls.flatten := by
  induction hs with
  | nil ls =>
    intro hlen
    have h0 : ls.flatten.length = 0 := by
      simp only [List.length_nil] at hlen
      rw [length_flatten_eq]
      omega
    rw [List.eq_nil_of_length_eq_zero h0]
  | step ls i h ev rest out hget htail ih =>
    intro hlen
    have hsum := sum_map_set List.length ls i h rest
    rw [hget] at hsum
    simp only [List.length_cons] at hsum hlen
    have hfull : out.length = ((ls.set i rest).map List.length).sum := by omega
    have hp := ih hfull
    exact ((hp.cons ev).trans (flatten_get_cons_perm ls i h ev rest hget).symm)

/-- A failure-free schedule consumes, per worker, at most the events
preceding that worker's first failure. -/
theorem Sched.errfree_le {ls : List (List Event)} {out : List Event}
    (hs : Sched ls out) :
    (∀ ev ∈ out, ev.isFailure = false) → out.length ≤ (ls.map errFreeLen).sum := by
  induction hs with
  | nil => simp
  | step ls i h ev rest out hget htail ih =>
    intro hfree
    have hev : ev.isFailure = false := hfree ev (by simp)
    have hout : ∀ x ∈ out, x.isFailure = false := fun x hx => hfree x (by simp [hx])
    have ihh := ih hout
    have hsum := sum_map_set errFreeLen ls i h rest
    rw [hget] at hsum
    have hcons : errFreeLen (ev :: rest) = errFreeLen rest + 1 := by
      simp [errFreeLen, List.takeWhile_cons, hev]
    simp only [List.length_cons]
    omega

/-- Permutations of lists of lists flatten to permutations. -/
theorem perm_flatten {α : Type} {l₁ l₂ : List (List α)} (h : l₁.Perm l₂) :
    l₁.flatten.Perm l₂.flatten := by
  induction h with
  | nil => rfl
  | cons x _ ih =>
    simpa [List.flatten_cons] using ih.append_left x
  | swap x y l =>
    simp only [List.flatten_cons, ← List.append_assoc]
    exact (@List.perm_append_comm _ y x).append_right l.flatten
  | trans _ _ ih₁ ih₂ => exact ih₁.trans ih₂

/-- A worker whose query succeeds emits exactly its result list. -/
theorem parallelGetByLabels_ok (k : Kubernetes) (kind envName : String)
    (hok : (k.ctl.getByLabels "" kind [(LabelEnvironment, envName)]).2 = none) :
    parallelGetByLabels k kind envName =
      [Event.success (k.ctl.getByLabels "" kind [(LabelEnvironment, envName)]).1] := by
  simp [parallelGetByLabels, hok]

/-- A worker whose query fails emits the wrapped error on the error
channel and then still emits the returned list on the result channel. -/
theorem parallelGetByLabels_err (k : Kubernetes) (kind envName err : String)
    (herr : (k.ctl.getByLabels "" kind [(LabelEnvironment, envName)]).2 = some err) :
    parallelGetByLabels k kind envName =
      [Event.failure (wrapOrphanErr kind err),
       Event.success (k.ctl.getByLabels "" kind [(LabelEnvironment, envName)]).1] := by
  simp [parallelGetByLabels, herr]

/-- Flattening singleton lists recovers the mapped heads. -/
theorem flatten_map_singleton {α β : Type} (f : α → β) :
    ∀ l : List α, (l.map (fun x => [f x])).flatten = l.map f := by
  intro l
  induction l with
  | nil => simp
  | cons x xs ih => simp [List.flatten_cons, ih]

/-- Summed lengths of singleton emissions equal the number of workers. -/
theorem sum_lengths_singleton {α : Type} (f : α → Event) :
    ∀ l : List α, ((l.map (fun x => [f x])).map List.length).sum = l.length := by
  intro l
  induction l with
  | nil => simp
  | cons x xs ih =>
    simp only [List.map_cons, List.sum_cons, List.length_cons, List.length_nil]
    rw [ih]
    omega

/-- Filtering distributes over flattening. -/
theorem filter_flatten_eq {α : Type} (p : α → Bool) :
    ∀ ls : List (List α), ls.flatten.filter p = (ls.map (fun l => l.filter p)).flatten := by
  intro ls
  induction ls with
  | nil => simp
  | cons l tl ih => simp [List.flatten_cons, List.filter_append, ih]

/-- The orphan contribution is invariant, up to permutation, under
permuting the consumed events. -/
theorem schedOrphans_perm (known : Identifier → Bool) {s₁ s₂ : List Event}
    (h : s₁.Perm s₂) : (schedOrphans known s₁).Perm (schedOrphans known s₂) := by
  unfold schedOrphans
  exact perm_flatten (h.map (eventOrphans known))

/-- A sequence of result-channel events contributes no failure. -/
theorem schedFailures_of_successes {sched : List Event}
    (h : ∀ ev ∈ sched, ev.isFailure = false) : schedFailures sched = [] := by
  induction sched with
  | nil => rfl
  | cons ev rest ih =>
    have hev := h ev (by simp)
    have hrest := ih (fun x hx => h x (by simp [hx]))
    cases ev with
    | success list => simpa [schedFailures, List.filterMap_cons] using hrest
    | failure err => simp [Event.isFailure] at hev

/-- Conversely, an empty failure extraction means no consumed event was a
failure. -/
theorem successes_of_schedFailures {sched : List Event}
    (h : schedFailures sched = []) : ∀ ev ∈ sched, ev.isFailure = false := by
  induction sched with
  | nil => simp
  | cons ev rest ih =>
    cases ev with
    | success list =>
      intro x hx
      rcases List.mem_cons.mp hx with hx | hx
      · subst hx; rfl
      · exact ih (by simpa [schedFailures, List.filterMap_cons] using h) x hx
    | failure err =>
      exfalso
      simp [schedFailures, List.filterMap_cons] at h

/-- When every category query succeeds, the emission family is one
singleton result-list message per kind. -/
theorem orphanEmissions_ok (k : Kubernetes)
    (hok : ∀ kind ∈ kinds,
      (k.ctl.getByLabels "" kind [(LabelEnvironment, k.Env.metadata.nameLabel)]).2 = none) :
    orphanEmissions k = kinds.map (fun kind =>
      [Event.success (k.ctl.getByLabels "" kind [(LabelEnvironment, k.Env.metadata.nameLabel)]).1]) := by
  unfold orphanEmissions
  exact List.map_congr_left (fun kind hk => parallelGetByLabels_ok k kind _ (hok kind hk))

/-- Characterisation of a successful `listOrphaned` run: the result is
`Ok`, and it is a permutation of the concatenated query results filtered
against the known (desired) identities. -/
theorem listOrphaned_ok_char (k : Kubernetes) (state : List Manifest) (sched : List Event)
    (hok : ∀ kind ∈ kinds,
      (k.ctl.getByLabels "" kind [(LabelEnvironment, k.Env.metadata.nameLabel)]).2 = none)
    (hs : Sched (orphanEmissions k) sched)
    (hlen : sched.length = kinds.length) :
    listOrphaned k state sched = Except.ok (schedOrphans (knownOf state) sched) ∧
    (schedOrphans (knownOf state) sched).Perm
      (((kinds.map (fun kind =>
          (k.ctl.getByLabels "" kind [(LabelEnvironment, k.Env.metadata.nameLabel)]).1)).flatten).filter
        (fun m => !(knownOf state m.Identifier))) := by
  have hE := orphanEmissions_ok k hok
  have hsum : ((orphanEmissions k).map List.length).sum = kinds.length := by
    rw [hE]
    exact sum_lengths_singleton _ kinds
  have hperm : sched.Perm (orphanEmissions k).flatten :=
    hs.full_perm (by rw [hsum]; exact hlen)
  have hflat : (orphanEmissions k).flatten = kinds.map (fun kind =>
      Event.success (k.ctl.getByLabels "" kind [(LabelEnvironment, k.Env.metadata.nameLabel)]).1) := by
    rw [hE]
    exact flatten_map_singleton _ kinds
  have hsucc : ∀ ev ∈ sched, ev.isFailure = false := by
    intro ev hev
    have : ev ∈ (orphanEmissions k).flatten := hperm.subset hev
    rw [hflat] at this
    obtain ⟨kind, _, hk⟩ := List.mem_map.mp this
    rw [← hk]
    rfl
  have hfail : schedFailures sched = [] := schedFailures_of_successes hsucc
  constructor
  · unfold listOrphaned
    rw [fanIn_eq, hfail]
    rfl
  · have h1 : (schedOrphans (knownOf state) sched).Perm
        (schedOrphans (knownOf state) ((orphanEmissions k).flatten)) :=
      schedOrphans_perm (knownOf state) hperm
    refine h1.trans ?_
    rw [hflat]
    unfold schedOrphans
    rw [List.map_map]
    rw [filter_flatten_eq, List.map_map]
    exact List.Perm.refl _

/-- Per-worker error-free budget: at most one event before (or without) a
failure. -/
theorem errFreeLen_le_one (k : Kubernetes) (kind envName : String) :
    errFreeLen (parallelGetByLabels k kind envName) ≤ 1 := by
  cases h : (k.ctl.getByLabels "" kind [(LabelEnvironment, envName)]).2 with
  | none =>
    rw [parallelGetByLabels_ok k kind envName h]
    simp [errFreeLen, List.takeWhile_cons, Event.isFailure]
  | some err =>
    rw [parallelGetByLabels_err k kind envName err h]
    simp [errFreeLen, List.takeWhile_cons, Event.isFailure]

/-- A failed worker contributes nothing to the error-free budget. -/
theorem errFreeLen_eq_zero (k : Kubernetes) (kind envName err : String)
    (herr : (k.ctl.getByLabels "" kind [(LabelEnvironment, envName)]).2 = some err) :
    errFreeLen (parallelGetByLabels k kind envName) = 0 := by
  rw [parallelGetByLabels_err k kind envName err herr]
  simp [errFreeLen, List.takeWhile_cons, Event.isFailure]

/-- Summing at most one per element stays below the element count. -/
theorem sum_errfree_le_length {α : Type} (g : α → List Event) :
    ∀ l : List α, (∀ x ∈ l, errFreeLen (g x) ≤ 1) →
      ((l.map g).map errFreeLen).sum ≤ l.length := by
  intro l
  induction l with
  | nil => simp
  | cons y ys ih =>
    intro hle
    have h1 := hle y (by simp)
    have h2 := ih (fun x hx => hle x (by simp [hx]))
    simp only [List.map_cons, List.sum_cons, List.length_cons]
    omega

/-- With one element contributing nothing, the error-free budget is
strictly below the element count. -/
theorem sum_errfree_lt_length {α : Type} (g : α → List Event) :
    ∀ (l : List α) (x₀ : α), x₀ ∈ l → errFreeLen (g x₀) = 0 →
      (∀ x ∈ l, errFreeLen (g x) ≤ 1) →
      ((l.map g).map errFreeLen).sum + 1 ≤ l.length := by
  intro l
  induction l with
  | nil =>
    intro x₀ h
    simp at h
  | cons y ys ih =>
    intro x₀ hmem h0 hle
    have h1 := hle y (by simp)
    have hless := sum_errfree_le_length g ys (fun x hx => hle x (by simp [hx]))
    simp only [List.map_cons, List.sum_cons, List.length_cons]
    rcases List.mem_cons.mp hmem with heq | hmem'
    · subst heq
      omega
    · have := ih x₀ hmem' h0 (fun x hx => hle x (by simp [hx]))
      simp only [List.map_cons, List.sum_cons, List.length_cons] at this ⊢
      omega

/-- Characterisation of a failing `listOrphaned` run: when some category
query has failed, every complete fan-in consumes at least one failure,
and the call returns the last consumed failure as its error. -/
theorem listOrphaned_err_char (k : Kubernetes) (state : List Manifest) (sched : List Event)
    (hs : Sched (orphanEmissions k) sched)
    (hlen : sched.length = kinds.length)
    (hfail : ∃ kind ∈ kinds,
      (k.ctl.getByLabels "" kind [(LabelEnvironment, k.Env.metadata.nameLabel)]).2 ≠ none) :
    ∃ e, (schedFailures sched).getLast? = some e ∧
      listOrphaned k state sched = Except.error e := by
  obtain ⟨kind₀, hk₀, hne⟩ := hfail
  obtain ⟨err₀, herr₀⟩ := Option.ne_none_iff_exists.mp hne
  have hnonnil : schedFailures sched ≠ [] := by
    intro h0
    have hsucc := successes_of_schedFailures h0
    have hbound := hs.errfree_le hsucc
    have hzero : errFreeLen (parallelGetByLabels k kind₀ k.Env.metadata.nameLabel) = 0 :=
      errFreeLen_eq_zero k kind₀ _ err₀ herr₀.symm
    have hle : ∀ kind ∈ kinds, errFreeLen (parallelGetByLabels k kind k.Env.metadata.nameLabel) ≤ 1 :=
      fun kind _ => errFreeLen_le_one k kind _
    have hlt := sum_errfree_lt_length
      (fun kind => parallelGetByLabels k kind k.Env.metadata.nameLabel)
      kinds kind₀ hk₀ hzero hle
    unfold orphanEmissions at hbound
    omega
  have hsome : (schedFailures sched).getLast?.isSome := by
    rw [List.getLast?_isSome]
    exact hnonnil
  obtain ⟨e, he⟩ := Option.isSome_iff_exists.mp hsome
  refine ⟨e, he, ?_⟩
  unfold listOrphaned
  rw [fanIn_eq]
  unfold lastOr
  rw [he]

/-- A member's image is bounded by the mapped sum. -/
theorem mem_le_map_sum {α : Type} (f : α → Nat) :
    ∀ (l : List α) (a : α), a ∈ l → f a ≤ (l.map f).sum := by
  intro l
  induction l with
  | nil => simp
  | cons y ys ih =>
    intro a ha
    rcases List.mem_cons.mp ha with h | h
    · subst h
      simp
    · have := ih a h
      simp only [List.map_cons, List.sum_cons]
      omega

/-- Two distinct members contribute separately to the mapped sum. -/
theorem two_mem_le_map_sum {α : Type} [DecidableEq α] (f : α → Nat) :
    ∀ (l : List α) (a b : α), a ∈ l → b ∈ l → a ≠ b →
      f a + f b ≤ (l.map f).sum := by
  intro l
  induction l with
  | nil => simp
  | cons y ys ih =>
    intro a b ha hb hne
    simp only [List.map_cons, List.sum_cons]
    rcases List.mem_cons.mp ha with h | h
    · subst h
      have hb' : b ∈ ys := by
        rcases List.mem_cons.mp hb with h' | h'
        · exact absurd h'.symm hne
        · exact h'
      have := mem_le_map_sum f ys b hb'
      omega
    · rcases List.mem_cons.mp hb with h' | h'
      · subst h'
        have := mem_le_map_sum f ys a h
        omega
      · have := ih a b h h' hne
        omega

/-- Counting distributes over flattening. -/
theorem countP_flatten_eq {α : Type} (p : α → Bool) :
    ∀ ls : List (List α), ls.flatten.countP p = (ls.map (fun l => l.countP p)).sum := by
  intro ls
  induction ls with
  | nil => simp
  | cons l tl ih => simp [List.flatten_cons, List.countP_append, ih]

/-- Stopping the fan-in early still yields a consumable sequence:
schedules are closed under taking prefixes. -/
theorem Sched.take {ls : List (List Event)} {out : List Event}
    (hs : Sched ls out) : ∀ n : Nat, Sched ls (out.take n) := by
  induction hs with
  | nil ls =>
    intro n
    rw [List.take_nil]
    exact Sched.nil ls
  | step ls i h ev rest out hget htail ih =>
    intro n
    cases n with
    | zero => exact Sched.nil ls
    | succ n => exact Sched.step ls i h ev rest (out.take n) hget (ih n)

/-- `countP` of an equality test is `1` on a duplicate-free list
containing the element. -/
theorem countP_beq_eq_one_of_nodup {α : Type} [DecidableEq α] :
    ∀ (l : List α), l.Nodup → ∀ a ∈ l, l.countP (fun x => x == a) = 1 := by
  intro l
  induction l with
  | nil => simp
  | cons y ys ih =>
    intro hnd a ha
    have hy : y ∉ ys := (List.nodup_cons.mp hnd).1
    have hys : ys.Nodup := (List.nodup_cons.mp hnd).2
    rcases List.mem_cons.mp ha with h | h
    · subst h
      have hzero : ys.countP (fun x => x == a) = 0 := by
        rw [List.countP_eq_zero]
        intro x hx
        simp only [beq_iff_eq]
        intro hxa
        exact hy (hxa ▸ hx)
      simp [List.countP_cons, hzero]
    · have hne : (y == a) = false := by
        simp only [beq_eq_false_iff_ne]
        intro hya
        exact hy (hya ▸ h)
      simp [List.countP_cons, ih hys a h, hne]

/- ===== Claim theorems ===== -/

/-- C9: `Identifier(m1) = Identifier(m2)` iff kind, metadata name and
metadata namespace are pairwise equal; a manifest differing only in its
body or labels has the same Identifier; equality is structural over
exactly those three fields. -/
theorem Identifier_eq_iff_kind_name_namespace (m₁ m₂ : Manifest) :
    (m₁.Identifier = m₂.Identifier ↔
      (m₁.kind = m₂.kind ∧ m₁.metadata.name = m₂.metadata.name ∧
        m₁.metadata.ns = m₂.metadata.ns)) ∧
    (∀ (b : String) (lb : List (String × String)),
      Manifest.Identifier
        { kind := m₁.kind,
          metadata := { name := m₁.metadata.name, ns := m₁.metadata.ns, labels := lb },
          body := b } = m₁.Identifier) := by
  constructor
  · constructor
    · intro h
      exact ⟨congrArg Identifier.Kind h, congrArg Identifier.Name h,
        congrArg Identifier.Namespace h⟩
    · intro ⟨h₁, h₂, h₃⟩
      unfold Manifest.Identifier
      rw [h₁, h₂, h₃]
  · intro b lb
    rfl

/-- C6: with no configured diff-strategy name, `New` picks `"subset"` for
server versions semantically below 1.13.0 and `"native"` otherwise, and a
configured non-empty name is left unchanged; the comparison is a proper
numeric semantic-version comparison (boundary checks included, plus
1.9.0 < 1.13.0, which a string comparison would order the other way). -/
theorem New_default_strategy_by_server_version
    (c : Config) (ctl : Client) (info : Info) (k : Kubernetes)
    (hinfo : ctl.info = Except.ok info)
    (hk : New c (Except.ok ctl) = Except.ok k) :
    (c.spec.diffStrategy = "" →
      k.Env.spec.diffStrategy =
        (if info.serverVersion.lessThan { major := 1, minor := 13, patch := 0 }
         then "subset" else "native")) ∧
    (c.spec.diffStrategy ≠ "" → k.Env.spec.diffStrategy = c.spec.diffStrategy) ∧
    Version.lessThan { major := 1, minor := 12, patch := 9 }
      { major := 1, minor := 13, patch := 0 } = true ∧
    Version.lessThan { major := 1, minor := 13, patch := 0 }
      { major := 1, minor := 13, patch := 0 } = false ∧
    Version.lessThan { major := 1, minor := 13, patch := 1 }
      { major := 1, minor := 13, patch := 0 } = false ∧
    Version.lessThan { major := 1, minor := 9, patch := 0 }
      { major := 1, minor := 13, patch := 0 } = true := by
  simp only [New, hinfo] at hk
  refine ⟨?_, ?_, by decide, by decide, by decide, by decide⟩
  · intro hempty
    rw [if_pos hempty] at hk
    cases hlt : info.serverVersion.lessThan { major := 1, minor := 13, patch := 0 } with
    | true =>
      rw [if_pos hlt] at hk
      cases hk
      rfl
    | false =>
      rw [if_neg (by simp [hlt])] at hk
      cases hk
      rfl
  · intro hne
    rw [if_neg hne] at hk
    cases hk
    rfl

theorem New_default_strategy_by_server_version_witness :
    ctl129.info = Except.ok info129 ∧
    New cfgEmpty (Except.ok ctl129) = Except.ok k129 ∧
    cfgEmpty.spec.diffStrategy = "" ∧
    k129.Env.spec.diffStrategy = "subset" := by
  refine ⟨rfl, rfl, rfl, ?_⟩
  have h := (New_default_strategy_by_server_version cfgEmpty ctl129 info129 k129 rfl rfl).1 rfl
  rw [h]
  decide

/-- C7 (amended): the per-call strategy override takes precedence
over the engine's default; a resolved name missing from the registry
makes `Diff` crash (nil-function call, modelled as the `none` result)
rather than fail with an error value. -/
theorem Diff_strategy_resolution_and_crash
    (dstat : String → Option String × Option String) (k : Kubernetes)
    (state : List Manifest) (opts : DiffOpts) :
    (opts.Strategy ≠ "" → resolveStrategy k opts = opts.Strategy) ∧
    (opts.Strategy = "" → resolveStrategy k opts = k.Env.spec.diffStrategy) ∧
    (k.differs (resolveStrategy k opts) = none → Diff dstat k state opts = none) := by
  refine ⟨?_, ?_, ?_⟩
  · intro h
    simp [resolveStrategy, h]
  · intro h
    simp [resolveStrategy, h]
  · intro h
    simp [Diff, h]

/-- C7 counterexample: with the unregistered per-call name `bogus`, the
source evaluates `k.differs["bogus"](state)` — a nil-function call that
panics; `Diff` yields no value at all (`none`), not an UnknownStrategy
error result. -/
theorem Diff_unknown_strategy_crash_counterexample :
    Diff dstatEcho demoK [] bogusOpts = none ∧
    (Diff dstatEcho demoK [] bogusOpts).isSome = false := by
  exact ⟨rfl, rfl⟩

theorem Diff_strategy_resolution_and_crash_witness :
    bogusOpts.Strategy ≠ "" ∧
    resolveStrategy demoK bogusOpts = "bogus" ∧
    demoK.differs (resolveStrategy demoK bogusOpts) = none ∧
    Diff dstatEcho demoK [] bogusOpts = none := by
  refine ⟨by decide, ?_, rfl, ?_⟩
  · exact (Diff_strategy_resolution_and_crash dstatEcho demoK [] bogusOpts).1 (by decide)
  · exact (Diff_strategy_resolution_and_crash dstatEcho demoK [] bogusOpts).2.2 rfl

/-- C8: a strategy reporting (nil, nil) makes `Diff` return the
distinguished no-diff result (nil, nil), which is distinct from a
present-but-empty diff text; a strategy error is returned as the error
with no diff text. -/
theorem Diff_no_diff_distinct
    (dstat : String → Option String × Option String) (k : Kubernetes)
    (state : List Manifest) (opts : DiffOpts) (differ : Differ)
    (hd : k.differs (resolveStrategy k opts) = some differ) :
    (differ state = (none, none) → Diff dstat k state opts = some (none, none)) ∧
    (∀ d e, differ state = (d, some e) → Diff dstat k state opts = some (none, some e)) ∧
    (differ state = (some "", none) → opts.Summarize = false →
      Diff dstat k state opts = some (some "", none)) ∧
    (some (none, none) : Option (Option String × Option String)) ≠ some (some "", none) := by
  refine ⟨?_, ?_, ?_, by decide⟩
  · intro h
    simp [Diff, hd, h]
  · intro d e h
    simp [Diff, hd, h]
  · intro h hs
    simp [Diff, hd, h, hs]

theorem Diff_no_diff_distinct_witness :
    demoK.differs (resolveStrategy demoK noStratOpts) = some demoK.ctl.diffServerSide ∧
    demoK.ctl.diffServerSide [] = (none, none) ∧
    Diff dstatEcho demoK [] noStratOpts = some (none, none) := by
  refine ⟨rfl, rfl, ?_⟩
  exact (Diff_no_diff_distinct dstatEcho demoK [] noStratOpts
    demoK.ctl.diffServerSide rfl).1 rfl

/-- C3 (code bug): with auto-approval off, `Apply` on the spec example
scenario never requests confirmation and never calls the client's apply;
the `if false` guard makes it list orphans and print their identifiers
instead. -/
theorem Apply_dead_confirm_branch :
    Apply demoK orphanState noApprove demoSched =
      (none, [ApplyEffect.printed "orphan",
              ApplyEffect.printedIdentifier
                { Kind := "Deployment", Name := "worker", Namespace := "prod" }]) ∧
    ApplyEffect.clientApplied ∉ (Apply demoK orphanState noApprove demoSched).2 ∧
    ApplyEffect.confirmRequested ∉ (Apply demoK orphanState noApprove demoSched).2 ∧
    noApprove.AutoApprove = false := by
  exact ⟨rfl, by decide, by decide, rfl⟩

/-- C4 (code bug): a worker whose query fails sends the wrapped error on
the error channel and then — lacking a `return` — also sends the (nil)
list on the result channel: two messages, one on each channel, not
exactly one outcome. -/
theorem parallelGetByLabels_sends_on_both_channels :
    parallelGetByLabels failK "ConfigMap" failK.Env.metadata.nameLabel =
      [Event.failure (wrapOrphanErr "ConfigMap" "boom"), Event.success []] ∧
    (parallelGetByLabels failK "ConfigMap" failK.Env.metadata.nameLabel).length = 2 ∧
    (parallelGetByLabels failK "ConfigMap" failK.Env.metadata.nameLabel).any
      Event.isFailure = true ∧
    (parallelGetByLabels failK "ConfigMap" failK.Env.metadata.nameLabel).any
      (fun ev => ! ev.isFailure) = true := by
  exact ⟨rfl, rfl, rfl, rfl⟩

/-- C5 counterexample: the first issued query (kind ConfigMap) passes the
empty string as namespace even though the environment's configured
namespace is `prod` — the query is not scoped to the environment's
namespace. -/
theorem queriesIssued_namespace_counterexample :
    (queriesIssued demoK).head? =
      some { ns := "", kind := "ConfigMap",
             selector := [(LabelEnvironment, "demo")] } ∧
    demoK.Env.spec.ns = "prod" ∧
    ("" : String) ≠ "prod" := by
  exact ⟨rfl, rfl, by decide⟩

/-- C5 (amended): orphan detection issues exactly one `getByLabels` query
per category of the fixed 21-kind catalog, independent of any query's
outcome; each query passes the empty namespace (not the environment's
configured namespace) and the fixed environment label key with the
environment's name label as value. -/
theorem queriesIssued_one_query_per_kind (k : Kubernetes) (κ : String)
    (hκ : κ ∈ kinds) :
    (queriesIssued k).length = 21 ∧
    (queriesIssued k).countP (fun q => q.kind == κ) = 1 ∧
    (∀ q ∈ queriesIssued k, q.ns = "" ∧
      q.selector = [(LabelEnvironment, k.Env.metadata.nameLabel)]) := by
  refine ⟨rfl, ?_, ?_⟩
  · unfold queriesIssued
    rw [List.countP_map]
    have : ((fun q : Query => q.kind == κ) ∘ fun kind =>
        ({ ns := "", kind := kind,
           selector := [(LabelEnvironment, k.Env.metadata.nameLabel)] } : Query)) =
        (fun kind => kind == κ) := rfl
    rw [this]
    exact countP_beq_eq_one_of_nodup kinds (by decide) κ hκ
  · intro q hq
    obtain ⟨kind, _, hk⟩ := List.mem_map.mp hq
    rw [← hk]
    exact ⟨rfl, rfl⟩

theorem queriesIssued_one_query_per_kind_witness :
    ("ConfigMap" ∈ kinds) ∧
    ((queriesIssued demoK).length = 21 ∧
     (queriesIssued demoK).countP (fun q => q.kind == "ConfigMap") = 1 ∧
     (∀ q ∈ queriesIssued demoK, q.ns = "" ∧
       q.selector = [(LabelEnvironment, demoK.Env.metadata.nameLabel)])) :=
  ⟨by decide, queriesIssued_one_query_per_kind demoK "ConfigMap" (by decide)⟩

/-- C1: when no category query fails, `listOrphaned` returns Ok with
exactly the manifests of the queried lists whose Identifier is not the
Identifier of any desired manifest (the set difference live minus
desired, by identity), whatever order the fan-in observed. -/
theorem orphan_no_failure_returns_live_minus_desired
    (k : Kubernetes) (state : List Manifest) (sched : List Event)
    (hok : ∀ kind ∈ kinds,
      (k.ctl.getByLabels "" kind [(LabelEnvironment, k.Env.metadata.nameLabel)]).2 = none)
    (hs : Sched (orphanEmissions k) sched)
    (hlen : sched.length = kinds.length) :
    ∃ l, listOrphaned k state sched = Except.ok l ∧
      l.Perm (((kinds.map (fun kind =>
        (k.ctl.getByLabels "" kind [(LabelEnvironment, k.Env.metadata.nameLabel)]).1)).flatten).filter
          (fun m => !(knownOf state m.Identifier))) := by
  obtain ⟨h1, h2⟩ := listOrphaned_ok_char k state sched hok hs hlen
  exact ⟨_, h1, h2⟩

theorem orphan_no_failure_returns_live_minus_desired_witness :
    (∀ kind ∈ kinds,
      (demoK.ctl.getByLabels "" kind [(LabelEnvironment, demoK.Env.metadata.nameLabel)]).2 = none) ∧
    Sched (orphanEmissions demoK) demoSched ∧
    demoSched.length = kinds.length ∧
    (∃ l, listOrphaned demoK orphanState demoSched = Except.ok l ∧
      l.Perm (((kinds.map (fun kind =>
        (demoK.ctl.getByLabels "" kind [(LabelEnvironment, demoK.Env.metadata.nameLabel)]).1)).flatten).filter
          (fun m => !(knownOf orphanState m.Identifier)))) :=
  ⟨by decide, sched_self (orphanEmissions demoK), by decide,
    orphan_no_failure_returns_live_minus_desired demoK orphanState demoSched
      (by decide) (sched_self (orphanEmissions demoK)) (by decide)⟩

/-- C2: whenever at least one category query fails, every complete run of
the fan-in returns an error — the last-observed failure, earlier ones
being overwritten — and no orphan list at all. -/
theorem orphan_failure_returns_last_error_only
    (k : Kubernetes) (state : List Manifest) (sched : List Event)
    (hs : Sched (orphanEmissions k) sched)
    (hlen : sched.length = kinds.length)
    (hfail : ∃ kind ∈ kinds,
      (k.ctl.getByLabels "" kind [(LabelEnvironment, k.Env.metadata.nameLabel)]).2 ≠ none) :
    ∃ e, (schedFailures sched).getLast? = some e ∧
      listOrphaned k state sched = Except.error e :=
  listOrphaned_err_char k state sched hs hlen hfail

theorem orphan_failure_returns_last_error_only_witness :
    Sched (orphanEmissions failK) failSched ∧
    failSched.length = kinds.length ∧
    (∃ kind ∈ kinds,
      (failK.ctl.getByLabels "" kind [(LabelEnvironment, failK.Env.metadata.nameLabel)]).2 ≠ none) ∧
    (∃ e, (schedFailures failSched).getLast? = some e ∧
      listOrphaned failK orphanState failSched = Except.error e) :=
  ⟨Sched.take (sched_self (orphanEmissions failK)) kinds.length, by decide,
    ⟨"ConfigMap", by decide, by decide⟩,
    orphan_failure_returns_last_error_only failK orphanState failSched
      (Sched.take (sched_self (orphanEmissions failK)) kinds.length) (by decide)
      ⟨"ConfigMap", by decide, by decide⟩⟩

/-- C10: the orphan result is deduplicated only against the desired
identities, not within itself — two successful category queries each
returning a manifest with the same unknown Identifier both contribute to
the returned list. -/
theorem orphan_list_not_deduplicated
    (k : Kubernetes) (state : List Manifest) (sched : List Event)
    (hok : ∀ kind ∈ kinds,
      (k.ctl.getByLabels "" kind [(LabelEnvironment, k.Env.metadata.nameLabel)]).2 = none)
    (hs : Sched (orphanEmissions k) sched)
    (hlen : sched.length = kinds.length)
    (κ₁ κ₂ : String) (hκ₁ : κ₁ ∈ kinds) (hκ₂ : κ₂ ∈ kinds) (hne : κ₁ ≠ κ₂)
    (m₁ m₂ : Manifest)
    (hm₁ : m₁ ∈ (k.ctl.getByLabels "" κ₁ [(LabelEnvironment, k.Env.metadata.nameLabel)]).1)
    (hm₂ : m₂ ∈ (k.ctl.getByLabels "" κ₂ [(LabelEnvironment, k.Env.metadata.nameLabel)]).1)
    (hid : m₂.Identifier = m₁.Identifier)
    (hunknown : knownOf state m₁.Identifier = false) :
    ∃ l, listOrphaned k state sched = Except.ok l ∧
      2 ≤ l.countP (fun m => m.Identifier == m₁.Identifier) := by
  obtain ⟨h1, h2⟩ := listOrphaned_ok_char k state sched hok hs hlen
  refine ⟨_, h1, ?_⟩
  rw [List.Perm.countP_eq _ h2]
  rw [filter_flatten_eq, List.map_map, countP_flatten_eq, List.map_map]
  have hterm₁ : 1 ≤ (((k.ctl.getByLabels "" κ₁
      [(LabelEnvironment, k.Env.metadata.nameLabel)]).1.filter
        (fun m => !(knownOf state m.Identifier))).countP
          (fun m => m.Identifier == m₁.Identifier)) := by
    refine List.countP_pos_iff.mpr ?_
    exact ⟨m₁, List.mem_filter.mpr ⟨hm₁, by rw [hunknown]; rfl⟩, by simp⟩
  have hterm₂ : 1 ≤ (((k.ctl.getByLabels "" κ₂
      [(LabelEnvironment, k.Env.metadata.nameLabel)]).1.filter
        (fun m => !(knownOf state m.Identifier))).countP
          (fun m => m.Identifier == m₁.Identifier)) := by
    refine List.countP_pos_iff.mpr ?_
    refine ⟨m₂, List.mem_filter.mpr ⟨hm₂, ?_⟩, ?_⟩
    · rw [hid, hunknown]
      rfl
    · simp [hid]
  have hsum := two_mem_le_map_sum
    (fun κ => (((k.ctl.getByLabels "" κ
      [(LabelEnvironment, k.Env.metadata.nameLabel)]).1.filter
        (fun m => !(knownOf state m.Identifier))).countP
          (fun m => m.Identifier == m₁.Identifier)))
    kinds κ₁ κ₂ hκ₁ hκ₂ hne
  show 2 ≤ (List.map
    (fun κ => (((k.ctl.getByLabels "" κ
      [(LabelEnvironment, k.Env.metadata.nameLabel)]).1.filter
        (fun m => !(knownOf state m.Identifier))).countP
          (fun m => m.Identifier == m₁.Identifier))) kinds).sum
  refine Nat.le_trans ?_ hsum
  show 2 ≤ (((k.ctl.getByLabels "" κ₁
      [(LabelEnvironment, k.Env.metadata.nameLabel)]).1.filter
        (fun m => !(knownOf state m.Identifier))).countP
          (fun m => m.Identifier == m₁.Identifier)) +
    (((k.ctl.getByLabels "" κ₂
      [(LabelEnvironment, k.Env.metadata.nameLabel)]).1.filter
        (fun m => !(knownOf state m.Identifier))).countP
          (fun m => m.Identifier == m₁.Identifier))
  omega

theorem orphan_list_not_deduplicated_witness :
    (∀ kind ∈ kinds,
      (dupK.ctl.getByLabels "" kind [(LabelEnvironment, dupK.Env.metadata.nameLabel)]).2 = none) ∧
    Sched (orphanEmissions dupK) dupSched ∧
    dupSched.length = kinds.length ∧
    ("ConfigMap" ∈ kinds ∧ "Secret" ∈ kinds ∧ "ConfigMap" ≠ "Secret") ∧
    dupManifest ∈ (dupK.ctl.getByLabels "" "ConfigMap"
      [(LabelEnvironment, dupK.Env.metadata.nameLabel)]).1 ∧
    dupManifest ∈ (dupK.ctl.getByLabels "" "Secret"
      [(LabelEnvironment, dupK.Env.metadata.nameLabel)]).1 ∧
    knownOf [] dupManifest.Identifier = false ∧
    (∃ l, listOrphaned dupK [] dupSched = Except.ok l ∧
      2 ≤ l.countP (fun m => m.Identifier == dupManifest.Identifier)) :=
  ⟨by decide, sched_self (orphanEmissions dupK), by decide,
    ⟨by decide, by decide, by decide⟩, by decide, by decide, by decide,
    orphan_list_not_deduplicated dupK [] dupSched (by decide)
      (sched_self (orphanEmissions dupK)) (by decide)
      "ConfigMap" "Secret" (by decide) (by decide) (by decide)
      dupManifest dupManifest (by decide) (by decide) rfl (by decide)⟩
